import Mathlib

/-!
Verification development for the midnight-scavenge-mine repository
(`register-all-addresses.py` and `consolidate-rewards.py`).

The two Python scripts are shallowly embedded as pure Lean functions:
  * bytes are `List Nat` (each entry a byte value),
  * the CBOR fragment exercised by the scripts (unsigned/negative integers,
    byte strings, text strings, booleans, one level of arrays/maps) is
    encoded by an executable encoder following RFC 8949 headers,
  * the cryptographic primitives of `pycardano` (HD derivation, Ed25519
    signing, key hashing, address construction) are abstract function
    parameters, since the scripts use them as black boxes,
  * network I/O is modelled by an oracle `String → Response` giving the
    remote service's response per address, and every externally visible
    action (signing, HTTP request, file write, sleep) is recorded in an
    explicit effect trace.
-/

namespace Scavenge

/-- Lower-case hexadecimal digit for a value below 16 (Python `bytes.hex()`). -/
def hexDigitChar (n : Nat) : Char :=
  if n < 10 then Char.ofNat (48 + n) else Char.ofNat (87 + n)

/-- Lower-case hex string of a byte list, as Python `bytes.hex()` renders it. -/
def bytesToHex (bs : List Nat) : String :=
  String.mk ((bs.map (fun b => [hexDigitChar (b / 16), hexDigitChar (b % 16)])).flatten)

/-- UTF-8 encoding of a single Unicode code point. -/
def utf8CharBytes (c : Nat) : List Nat :=
  if c < 128 then [c]
  else if c < 2048 then [192 + c / 64, 128 + c % 64]
  else if c < 65536 then [224 + c / 4096, 128 + (c / 64) % 64, 128 + c % 64]
  else [240 + c / 262144, 128 + (c / 4096) % 64, 128 + (c / 64) % 64, 128 + c % 64]

/-- Raw UTF-8 bytes of a string (Python `str.encode('utf-8')`). -/
def strUtf8 (s : String) : List Nat :=
  (s.data.map (fun ch => utf8CharBytes ch.toNat)).flatten

/-- Character-wise truncation, as Python slicing `s[:n]` does. -/
def strTake (s : String) (n : Nat) : String :=
  String.mk (s.data.take n)

/-- Big-endian base-256 digits of `n`, exactly `k` bytes wide. -/
def natBE (k : Nat) (n : Nat) : List Nat :=
  match k with
  | 0 => []
  | k + 1 => natBE k (n / 256) ++ [n % 256]

/-- RFC 8949 head for major type `mt` and argument `n`, shortest form,
as `cbor2.dumps` produces. -/
def cborHead (mt : Nat) (n : Nat) : List Nat :=
  if n < 24 then [32 * mt + n]
  else if n < 256 then [32 * mt + 24, n]
  else if n < 65536 then [32 * mt + 25] ++ natBE 2 n
  else if n < 4294967296 then [32 * mt + 26] ++ natBE 4 n
  else [32 * mt + 27] ++ natBE 8 n

/-- Atomic CBOR data items appearing in the scripts' structures.
`nint n` is the CBOR negative integer `-(n+1)`; `cbor2.dumps(-8)` encodes
major type 1 with argument 7. -/
inductive CItem where
  | uint (n : Nat)
  | nint (n : Nat)
  | bytes (bs : List Nat)
  | text (s : String)
  | bool (b : Bool)
deriving DecidableEq

/-- RFC 8949 encoding of an atomic item. -/
def encodeItem : CItem → List Nat
  | .uint n => cborHead 0 n
  | .nint n => cborHead 1 n
  | .bytes bs => cborHead 2 bs.length ++ bs
  | .text s => cborHead 3 (strUtf8 s).length ++ strUtf8 s
  | .bool b => if b then [245] else [244]

/-- RFC 8949 encoding of a map of atomic items, pairs in the given order
(`cbor2.dumps` keeps Python dict insertion order by default). -/
def encodeMap (ps : List (CItem × CItem)) : List Nat :=
  cborHead 5 ps.length ++ (ps.map (fun p => encodeItem p.1 ++ encodeItem p.2)).flatten

/-- Elements of the scripts' top-level CBOR arrays: atoms or one map of atoms
(the COSE_Sign1 array holds the unprotected-header map as an element). -/
inductive CVal where
  | item (i : CItem)
  | map1 (ps : List (CItem × CItem))
deriving DecidableEq

/-- RFC 8949 encoding of an array element. -/
def encodeVal : CVal → List Nat
  | .item i => encodeItem i
  | .map1 ps => encodeMap ps

/-- RFC 8949 encoding of an array, elements in the given order. -/
def encodeArray (xs : List CVal) : List Nat :=
  cborHead 4 xs.length ++ (xs.map encodeVal).flatten

/-- Embedding of `sign_cip30_message(message, payment_skey, address)`
(identical in both scripts).  `sign` abstracts `payment_skey.sign` and
`addressBytes` abstracts `address.to_primitive()`. -/
def sign_cip30_message (message : String) (sign : List Nat → List Nat)
    (addressBytes : List Nat) : String :=
  let protectedBytes :=
    encodeMap [(.uint 1, .nint 7), (.uint 4, .bytes addressBytes),
               (.text "address", .bytes addressBytes)]
  let payload := strUtf8 message
  let sigStructure :=
    encodeArray [.item (.text "Signature1"), .item (.bytes protectedBytes),
                 .item (.bytes []), .item (.bytes payload)]
  let signatureBytes := sign sigStructure
  let coseSign1 :=
    encodeArray [.item (.bytes protectedBytes),
                 .map1 [(.text "hashed", .bool false)],
                 .item (.bytes payload), .item (.bytes signatureBytes)]
  bytesToHex coseSign1

/-- Spec-side vocabulary: the protected header named by the claim,
the CBOR map `\x7b1: -8, 4: addressBytes, "address": addressBytes\x7d`. -/
def protectedHeaderBytes (addressBytes : List Nat) : List Nat :=
  encodeMap [(.uint 1, .nint 7), (.uint 4, .bytes addressBytes),
             (.text "address", .bytes addressBytes)]

/-- Spec-side vocabulary: the signed structure named by the claim,
the CBOR array `["Signature1", protectedHeaderBytes, empty byte string,
payloadBytes]`. -/
def sigStructureBytes (message : String) (addressBytes : List Nat) : List Nat :=
  encodeArray [.item (.text "Signature1"),
               .item (.bytes (protectedHeaderBytes addressBytes)),
               .item (.bytes []), .item (.bytes (strUtf8 message))]

/-- Claim C1: for every message, signing key and address,
`sign_cip30_message` returns the hex encoding of the CBOR serialization of
the four-element array `[protectedHeaderBytes, unprotectedHeaders,
payloadBytes, signatureBytes]`, where the protected header is the CBOR map
`\x7b1: -8, 4: addressBytes, "address": addressBytes\x7d`, the unprotected
header is `\x7b"hashed": false\x7d`, the payload is the raw UTF-8 bytes of
the message, and the signature is produced by the key over exactly the CBOR
serialization of `["Signature1", protectedHeaderBytes, empty byte string,
payloadBytes]`. -/
theorem sign_cip30_message_envelope (message : String)
    (sign : List Nat → List Nat) (addressBytes : List Nat) :
    sign_cip30_message message sign addressBytes =
      bytesToHex (encodeArray
        [.item (.bytes (protectedHeaderBytes addressBytes)),
         .map1 [(.text "hashed", .bool false)],
         .item (.bytes (strUtf8 message)),
         .item (.bytes (sign (sigStructureBytes message addressBytes)))]) :=
  rfl

/-- One derived address record, as the dict appended by
`derive_addresses_from_mnemonic`: index, address string (`str(address)`),
raw address bytes (`address.to_primitive()`, kept as `address_obj` for
signing), payment signing key bytes and payment verification key bytes. -/
structure Record where
  index : Nat
  address : String
  addressBytes : List Nat
  skey : List Nat
  vkey : List Nat
deriving DecidableEq, Inhabited

/-- Abstract `pycardano` primitives used by the derivation loop.  A wallet
is represented by its extended private key bytes (`xprivate_key`). -/
structure HDPrim where
  fromMnemonic : String → List Nat
  deriveFromPath : List Nat → String → List Nat
  vkeyOfSkey : List Nat → List Nat
  keyHash : List Nat → List Nat
  mkAddress : List Nat → List Nat → List Nat
  addrString : List Nat → String

/-- One iteration of the derivation loop: payment key from path
`m/0/index`, verification key, base address from the payment key hash and
the shared stake key hash. -/
def mkRecord (p : HDPrim) (account : List Nat) (stakeHash : List Nat)
    (index : Nat) : Record :=
  let paymentWallet := p.deriveFromPath account ("m/0/" ++ toString index)
  let paymentSkey := paymentWallet.take 32
  let paymentVkey := p.vkeyOfSkey paymentSkey
  let addressBytes := p.mkAddress (p.keyHash paymentVkey) stakeHash
  { index := index
    address := p.addrString addressBytes
    addressBytes := addressBytes
    skey := paymentSkey
    vkey := paymentVkey }

/-- Embedding of `derive_addresses_from_mnemonic(mnemonic, count)`
(identical in both scripts): account wallet at `m/1852'/1815'/0'`, one
shared stake key at `m/2/0`, then one payment record per index `0..count-1`. -/
def derive_addresses_from_mnemonic (p : HDPrim) (mnemonic : String)
    (count : Nat) : List Record :=
  let hdwallet := p.fromMnemonic mnemonic
  let account := p.deriveFromPath hdwallet "m/1852\x27/1815\x27/0\x27"
  let stakeWallet := p.deriveFromPath account "m/2/0"
  let stakeSkey := stakeWallet.take 32
  let stakeVkey := p.vkeyOfSkey stakeSkey
  let stakeHash := p.keyHash stakeVkey
  (List.range count).map (mkRecord p account stakeHash)

/-- Remote service response for one request: an HTTP response with status,
optional `Retry-After` header, the JSON body when the body parses as JSON,
and the raw body text — or a transport-level exception. -/
inductive Response where
  | http (status : Nat) (retryAfter : Option String) (jsonBody : Option String)
      (text : String)
  | netErr (msg : String)
deriving DecidableEq

/-- Result dict of a single remote call, covering the keys the two scripts
put in their result dicts (`success`, `rate_limited`, `error`, `status`,
`data`).  JSON error bodies are collapsed to their string rendering. -/
structure ApiResult where
  success : Bool
  rateLimited : Bool
  error : Option String
  status : Option Nat
  payload : Option String
deriving DecidableEq

/-- Externally visible actions of a run, in order: a signing operation with
the key of an address, an HTTP POST (with the address, the request URL and
the success classification of the response), a durable file write, and a
`time.sleep` (milliseconds). -/
inductive Effect where
  | sign (addr : String) (message : String)
  | post (addr : String) (url : String) (ok : Bool)
  | write (file : String)
  | sleep (ms : Nat)
deriving DecidableEq

/-- URL of `POST /register/\x7baddress\x7d/\x7bsignature\x7d/\x7bpubkey\x7d`. -/
def regUrl (address signature pubkey : String) : String :=
  "https://scavenger.prod.gd.midnighttge.io/register/" ++ address ++ "/" ++
    signature ++ "/" ++ pubkey

/-- Classification of the response in `register_address`: a 429 is flagged
`rate_limited` with the `Retry-After` hint; `response.ok` (status < 400) is
a success whose data falls back to a fixed message when the body is not
JSON; other statuses are failures carrying the JSON error body or an
`HTTP \x7bstatus\x7d: \x7btext[:100]\x7d` string. -/
def regClassify : Response → ApiResult
  | .netErr e =>
      { success := false, rateLimited := false, error := some e,
        status := none, payload := none }
  | .http status retryAfter jsonBody text =>
      if status = 429 then
        { success := false, rateLimited := true,
          error := some ("Rate limited (retry after: " ++
            retryAfter.getD "unknown" ++ ")"),
          status := none, payload := none }
      else if status < 400 then
        { success := true, rateLimited := false, error := none, status := none,
          payload := some (jsonBody.getD "Registered (no JSON response)") }
      else
        { success := false, rateLimited := false,
          error := some (jsonBody.getD ("HTTP " ++ toString status ++ ": " ++
            strTake text 100)),
          status := some status, payload := none }

/-- Embedding of `register_address(address, signature, pubkey)`: one POST to
the register endpoint, classified by `regClassify`.  The oracle gives the
service's response for the address. -/
def register_address (oracle : String → Response)
    (address signature pubkey : String) : ApiResult × Effect :=
  let res := regClassify (oracle address)
  (res, .post address (regUrl address signature pubkey) res.success)

/-- Ledger entry persisted by the registration script:
`\x7b'address', 'signature', 'pubkey'\x7d`. -/
structure RegEntry where
  address : String
  signature : String
  pubkey : String
deriving DecidableEq

/-- The per-address loop of `register_all_addresses`.  Arguments track the
loop state: remaining records, current index `i`, `total = len(addresses)`,
accumulated `registrations` and the membership set `registered_addrs`.
An address already in the set is skipped by `continue` (which also skips
the inter-request sleep); otherwise the script signs, POSTs, and on success
appends the ledger entry and immediately rewrites the partial file; a fixed
2-second sleep separates non-final iterations. -/
def regLoop (oracle : String → Response)
    (signPrim : List Nat → List Nat → List Nat) (message : String) :
    List Record → Nat → Nat → List RegEntry → List String →
      List RegEntry × List Effect
  | [], _, _, regs, _ => (regs, [])
  | r :: rest, i, total, regs, done =>
    if r.address ∈ done then
      regLoop oracle signPrim message rest (i + 1) total regs done
    else
      let sig := sign_cip30_message message (signPrim r.skey) r.addressBytes
      let pk := bytesToHex r.vkey
      let res := (register_address oracle r.address sig pk).1
      let postEff := (register_address oracle r.address sig pk).2
      let regs' := if res.success then
          regs ++ [{ address := r.address, signature := sig, pubkey := pk }]
        else regs
      let done' := if res.success then done ++ [r.address] else done
      let writeTr : List Effect :=
        if res.success then [.write "registrations-partial.json"] else []
      let sleepTr : List Effect := if i < total - 1 then [.sleep 2000] else []
      let out := regLoop oracle signPrim message rest (i + 1) total regs' done'
      (out.1,
        .sign r.address message :: postEff :: (writeTr ++ sleepTr ++ out.2))

/-- Embedding of `register_all_addresses(addresses, message)`.
`tempFileExists` models `os.path.exists('registrations-partial.json')` and
`parsed` the outcome of `json.load` on it (`none` = parse failure).  When
the file exists but does not parse, the `except: pass` leaves
`registered_addrs` unbound while `registrations` stays `[]`; the first
membership check then raises `NameError`, aborting before any signing or
network call (modelled as `.error` with an empty trace). -/
def register_all_addresses (oracle : String → Response)
    (signPrim : List Nat → List Nat → List Nat) (addresses : List Record)
    (message : String) (tempFileExists : Bool)
    (parsed : Option (List RegEntry)) :
    Except String (List RegEntry) × List Effect :=
  if tempFileExists then
    match parsed with
    | some regs =>
        let out := regLoop oracle signPrim message addresses 0 addresses.length
          regs (regs.map (·.address))
        (.ok out.1, out.2)
    | none =>
        match addresses with
        | [] => (.ok [], [])
        | _ :: _ =>
            (.error "NameError: name registered_addrs is not defined", [])
  else
    let out := regLoop oracle signPrim message addresses 0 addresses.length
      [] []
    (.ok out.1, out.2)

/-- Whether an effect is a remote call issued for the given address. -/
def isPostFor (a : String) : Effect → Bool
  | .post addr _ _ => addr = a
  | _ => false

/-- Number of remote calls issued for the given address in a trace. -/
def remoteCallsFor (a : String) (tr : List Effect) : Nat :=
  tr.countP (isPostFor a)

/-- Whether an effect is a signing operation with the key of the given
address. -/
def isSignFor (a : String) : Effect → Bool
  | .sign addr _ => addr = a
  | _ => false

/-- Number of signing operations for the given address in a trace. -/
def signOpsFor (a : String) (tr : List Effect) : Nat :=
  tr.countP (isSignFor a)

/-- Whether an effect is a durable file write. -/
def isWriteEff : Effect → Bool
  | .write _ => true
  | _ => false

/-- Scanning forward from a successful remote call: a durable write is
reached before any further remote call (trace exhaustion counts as no
further remote call). -/
def writeBeforeNextRemote : List Effect → Bool
  | [] => true
  | .write _ :: _ => true
  | .post _ _ _ :: _ => false
  | _ :: rest => writeBeforeNextRemote rest

/-- The ledger-durability discipline of a trace: after every successful
remote call, a durable write occurs before the next remote call. -/
def persistedBeforeNext : List Effect → Bool
  | [] => true
  | .post _ _ true :: rest => writeBeforeNextRemote rest && persistedBeforeNext rest
  | _ :: rest => persistedBeforeNext rest

/-- Scanning forward from a remote call: a sleep is reached before any
further remote call (trace exhaustion counts as no further remote call). -/
def sleepBeforeNextRemote : List Effect → Bool
  | [] => true
  | .sleep _ :: _ => true
  | .post _ _ _ :: _ => false
  | _ :: rest => sleepBeforeNextRemote rest

/-- The pacing discipline of a trace: after every remote call, a delay
occurs before the next remote call. -/
def pacedBetweenRemotes : List Effect → Bool
  | [] => true
  | .post _ _ _ :: rest => sleepBeforeNextRemote rest && pacedBetweenRemotes rest
  | _ :: rest => pacedBetweenRemotes rest

/-- URL of `POST /donate_to/\x7bdestination\x7d/\x7boriginal\x7d/\x7bsignature\x7d`. -/
def consUrl (destination original signature : String) : String :=
  "https://scavenger.prod.gd.midnighttge.io/donate_to/" ++ destination ++
    "/" ++ original ++ "/" ++ signature

/-- Classification of the response in `consolidate_address`: `response.ok`
(status < 400) is a success; any other status is a failure carrying the
JSON error body or an `HTTP \x7bstatus\x7d: \x7btext[:200]\x7d` string.
There is no rate-limit branch in this script: a 429 goes through the
generic failure arm. -/
def consClassify : Response → ApiResult
  | .netErr e =>
      { success := false, rateLimited := false, error := some e,
        status := none, payload := none }
  | .http status _ jsonBody text =>
      if status < 400 then
        { success := true, rateLimited := false, error := none, status := none,
          payload := some (jsonBody.getD "Success (no JSON response)") }
      else
        { success := false, rateLimited := false,
          error := some (jsonBody.getD ("HTTP " ++ toString status ++ ": " ++
            strTake text 200)),
          status := some status, payload := none }

/-- Embedding of `consolidate_address(destination, original, signature)`:
one POST to the donate_to endpoint, classified by `consClassify`. -/
def consolidate_address (oracle : String → Response)
    (destination original signature : String) : ApiResult × Effect :=
  let res := consClassify (oracle original)
  (res, .post original (consUrl destination original signature) res.success)

/-- One entry of the `results` list persisted by `consolidate_all`:
success entries carry the response data, failures carry the error detail
and the HTTP status when one was available ('unknown' is `none`), and
lookup failures carry only the fixed error string. -/
structure CResult where
  address : String
  success : Bool
  error : Option String
  status : Option Nat
  payload : Option String
deriving DecidableEq

/-- The dict comprehension `\x7ba['address']: a for a in derived_addresses\x7d`
followed by lookup: the record with the given address, later duplicates
overriding earlier ones. -/
def addressMap (derived : List Record) (a : String) : Option Record :=
  derived.foldl (fun acc r => if r.address = a then some r else acc) none

/-- The per-address loop of `consolidate_all`.  An address missing from the
derived map yields a `Not in derived set` failure entry and `continue`
(which also skips the pacing sleep); otherwise the script signs the
consolidation message, POSTs, records a success or failure entry, and a
0.5-second sleep separates non-final iterations.  Returns
`(success_count, results, trace)`. -/
def consLoop (oracle : String → Response)
    (signPrim : List Nat → List Nat → List Nat) (destination : String)
    (derived : List Record) (message : String) :
    List String → Nat → Nat → Nat × List CResult × List Effect
  | [], _, _ => (0, [], [])
  | a :: rest, i, total =>
    match addressMap derived a with
    | none =>
        let out := consLoop oracle signPrim destination derived message rest
          (i + 1) total
        (out.1,
         { address := a, success := false, error := some "Not in derived set",
           status := none, payload := none } :: out.2.1,
         out.2.2)
    | some r =>
        let sig := sign_cip30_message message (signPrim r.skey) r.addressBytes
        let res := (consolidate_address oracle destination a sig).1
        let postEff := (consolidate_address oracle destination a sig).2
        let entry : CResult :=
          if res.success then
            { address := a, success := true, error := none, status := none,
              payload := res.payload }
          else
            { address := a, success := false, error := res.error,
              status := res.status, payload := none }
        let sleepTr : List Effect := if i < total - 1 then [.sleep 500] else []
        let out := consLoop oracle signPrim destination derived message rest
          (i + 1) total
        ((if res.success then 1 else 0) + out.1,
         entry :: out.2.1,
         .sign a message :: postEff :: (sleepTr ++ out.2.2))

/-- Embedding of `consolidate_all(destination, derived_addresses,
registered_addresses)`: fixed consolidation message, per-address loop, and
a single write of `consolidation-results.json` at the very end of the run. -/
def consolidate_all (oracle : String → Response)
    (signPrim : List Nat → List Nat → List Nat) (destination : String)
    (derived : List Record) (registered : List String) :
    Nat × List CResult × List Effect :=
  let message := "Assign accumulated Scavenger rights to: " ++ destination
  let out := consLoop oracle signPrim destination derived message registered 0
    registered.length
  (out.1, out.2.1, out.2.2 ++ [.write "consolidation-results.json"])

/-- Outcome of the consolidation `main` from the first-address verification
onwards. -/
inductive ConsOutcome where
  | fatalMismatch
  | indexError
  | completed (successCount : Nat) (results : List CResult)
deriving DecidableEq

/-- Embedding of the tail of `main` in `consolidate-rewards.py`, from the
first-address verification (line 348) on: if the first derived address
differs from the first registered address the run stops with the fatal
mismatch error before `consolidate_all` is invoked; `indexError` marks the
out-of-range access Python would hit on empty lists (unreachable from
`main`, which returns earlier when no addresses were loaded). -/
def consolidationMain (oracle : String → Response)
    (signPrim : List Nat → List Nat → List Nat) (derived : List Record)
    (registered : List String) (destination : String) :
    ConsOutcome × List Effect :=
  match derived, registered with
  | d :: _, r :: _ =>
      if d.address = r then
        let out := consolidate_all oracle signPrim destination derived
          registered
        (.completed out.1 out.2.1, out.2.2)
      else (.fatalMismatch, [])
  | _, _ => (.indexError, [])

/-! Concrete fixtures used by witnesses and counterexamples. -/

/-- A signing primitive that ignores the key and returns its input. -/
def signId : List Nat → List Nat → List Nat := fun _ m => m

/-- An oracle whose every response is a 200 with JSON body. -/
def oracleOK : String → Response := fun _ => .http 200 none (some "ok") "ok"

/-- An oracle whose every response is a 429 with a Retry-After hint and a
non-JSON body. -/
def oracle429 : String → Response := fun _ => .http 429 (some "5") none "slow"

/-- An oracle whose every response is a 500 with a non-JSON body. -/
def oracle500 : String → Response := fun _ => .http 500 none none "slow"

/-- A derived record with address "A". -/
def recA : Record :=
  { index := 0, address := "A", addressBytes := [1], skey := [2], vkey := [3] }

/-- A derived record with address "B". -/
def recB : Record :=
  { index := 1, address := "B", addressBytes := [4], skey := [5], vkey := [6] }

/-- A concrete instantiation of the abstract derivation primitives. -/
def dummyPrim : HDPrim :=
  { fromMnemonic := fun s => strUtf8 s
    deriveFromPath := fun w path => w ++ strUtf8 path
    vkeyOfSkey := fun k => 1 :: k
    keyHash := fun k => k.take 4
    mkAddress := fun payment stake => payment ++ stake
    addrString := fun bs => bytesToHex bs }

/-! Claim C2. -/

/-- Length of the derived list is the requested count. -/
theorem derive_length (p : HDPrim) (mnemonic : String) (count : Nat) :
    (derive_addresses_from_mnemonic p mnemonic count).length = count := by
  simp [derive_addresses_from_mnemonic]

/-- Claim C2: for every seed (any derivation primitives and mnemonic) and
every nonempty registered-address list, if the first derived address
differs from the first registered address, the consolidation run returns
the fatal precondition error with an empty effect trace — zero signing
operations and zero network calls, before `consolidate_all` is invoked. -/
theorem consolidation_mismatch_aborts (p : HDPrim) (mnemonic : String)
    (oracle : String → Response)
    (signPrim : List Nat → List Nat → List Nat) (r : String)
    (rs : List String) (destination : String)
    (h : (derive_addresses_from_mnemonic p mnemonic
      (r :: rs).length).headI.address ≠ r) :
    consolidationMain oracle signPrim
      (derive_addresses_from_mnemonic p mnemonic (r :: rs).length)
      (r :: rs) destination = (.fatalMismatch, []) := by
  obtain ⟨d, t, hdt⟩ :=
    List.exists_cons_of_ne_nil (l := derive_addresses_from_mnemonic p mnemonic
      (r :: rs).length) (by
        intro hnil
        have := derive_length p mnemonic (r :: rs).length
        rw [hnil] at this
        simp at this)
  rw [hdt] at h ⊢
  simp only [List.headI] at h
  simp [consolidationMain, h]

/-- Witness for C2 at concrete inputs. -/
theorem consolidation_mismatch_aborts_witness :
    (derive_addresses_from_mnemonic dummyPrim "seed"
      (["X"] : List String).length).headI.address ≠ "X" ∧
    consolidationMain oracleOK signId
      (derive_addresses_from_mnemonic dummyPrim "seed"
        (["X"] : List String).length) ["X"] "D" = (.fatalMismatch, []) :=
  ⟨by decide, consolidation_mismatch_aborts dummyPrim "seed" oracleOK signId
    "X" [] "D" (by decide)⟩

/-! Claim C10. -/

/-- Claim C10: when the partial-ledger file exists but cannot be parsed as
JSON, the registration batch does not proceed with an empty ledger — the
membership check at the first address reads the unbound name
`registered_addrs`, so the run aborts with an unbound-variable error and
an empty effect trace, before any signing or network call. -/
theorem parse_failure_aborts_unbound (oracle : String → Response)
    (signPrim : List Nat → List Nat → List Nat) (r : Record)
    (rest : List Record) (message : String) :
    register_all_addresses oracle signPrim (r :: rest) message true none =
      (.error "NameError: name registered_addrs is not defined", []) := by
  simp [register_all_addresses]

/-! Claim C9. -/

/-- A lookup in the derived-address map fails exactly when no derived
record carries the address. -/
theorem addressMap_foldl_const (a : String) :
    ∀ (l : List Record) (acc : Option Record),
      (∀ rec ∈ l, rec.address ≠ a) →
      l.foldl (fun acc r => if r.address = a then some r else acc) acc =
        acc := by
  intro l
  induction l with
  | nil => intro acc _; rfl
  | cons b l ih =>
      intro acc hall
      have hb : b.address ≠ a := hall b (List.mem_cons_self b l)
      simp only [List.foldl_cons, if_neg hb]
      exact ih acc (fun rec hr => hall rec (List.mem_cons_of_mem b hr))

/-- A lookup in the derived-address map fails when no derived record
carries the address. -/
theorem addressMap_eq_none (derived : List Record) (a : String)
    (h : ∀ rec ∈ derived, rec.address ≠ a) : addressMap derived a = none :=
  addressMap_foldl_const a derived none h

/-- The consolidation loop records exactly one result per target address. -/
theorem consLoop_length (oracle : String → Response)
    (signPrim : List Nat → List Nat → List Nat)
    (destination : String) (derived : List Record) (message : String) :
    ∀ (lst : List String) (i total : Nat),
      (consLoop oracle signPrim destination derived message lst i
        total).2.1.length = lst.length := by
  intro lst
  induction lst with
  | nil => intro i total; rfl
  | cons a rest ih =>
      intro i total
      cases hmap : addressMap derived a with
      | none => simp [consLoop, hmap, ih]
      | some r => simp [consLoop, hmap, ih]

/-- A target address absent from the derived records yields the fixed
`Not in derived set` failure entry in the loop's results. -/
theorem consLoop_notfound_mem (oracle : String → Response)
    (signPrim : List Nat → List Nat → List Nat)
    (destination : String) (derived : List Record) (message : String)
    (a : String) (hnone : addressMap derived a = none) :
    ∀ (lst : List String) (i total : Nat), a ∈ lst →
      ({ address := a, success := false, error := some "Not in derived set",
         status := none, payload := none } : CResult) ∈
        (consLoop oracle signPrim destination derived message lst i
          total).2.1 := by
  intro lst
  induction lst with
  | nil => intro i total hmem; cases hmem
  | cons b rest ih =>
      intro i total hmem
      rcases List.mem_cons.mp hmem with hb | hrest
      · subst hb
        simp [consLoop, hnone]
      · cases hmap : addressMap derived b with
        | none =>
            simp only [consLoop, hmap]
            exact List.mem_cons_of_mem _ (ih (i + 1) total hrest)
        | some r =>
            simp only [consLoop, hmap]
            exact List.mem_cons_of_mem _ (ih (i + 1) total hrest)

/-- Claim C9: an address in the registered target list that is absent from
the derived record set is recorded as a per-address failure with the fixed
error detail, and the batch continues — every target address still
produces exactly one result, so the failure is not fatal to the run. -/
theorem consolidate_missing_address_nonfatal (oracle : String → Response)
    (signPrim : List Nat → List Nat → List Nat)
    (destination : String) (derived : List Record)
    (registered : List String) (a : String) (hmem : a ∈ registered)
    (habsent : ∀ rec ∈ derived, rec.address ≠ a) :
    ({ address := a, success := false, error := some "Not in derived set",
       status := none, payload := none } : CResult) ∈
      (consolidate_all oracle signPrim destination derived registered).2.1 ∧
    (consolidate_all oracle signPrim destination derived
      registered).2.1.length = registered.length := by
  have hnone := addressMap_eq_none derived a habsent
  constructor
  · exact consLoop_notfound_mem oracle signPrim destination derived _ a hnone
      registered 0 registered.length hmem
  · exact consLoop_length oracle signPrim destination derived _ registered 0
      registered.length

/-- Witness for C9 at concrete inputs. -/
theorem consolidate_missing_address_nonfatal_witness :
    ("A" ∈ (["A", "B"] : List String)) ∧
    ({ address := "A", success := false, error := some "Not in derived set",
       status := none, payload := none } : CResult) ∈
      (consolidate_all oracleOK signId "D" [recB] ["A", "B"]).2.1 ∧
    (consolidate_all oracleOK signId "D" [recB]
      ["A", "B"]).2.1.length = (["A", "B"] : List String).length :=
  ⟨by decide,
   consolidate_missing_address_nonfatal oracleOK signId "D" [recB] ["A", "B"]
     "A" (by decide) (by decide)⟩

/-! Claim C6. -/

/-- The account wallet at the fixed purpose path, shared by all records. -/
def accountWallet (p : HDPrim) (mnemonic : String) : List Nat :=
  p.deriveFromPath (p.fromMnemonic mnemonic) "m/1852\x27/1815\x27/0\x27"

/-- The shared stake key hash, computed once per run. -/
def sharedStakeHash (p : HDPrim) (mnemonic : String) : List Nat :=
  p.keyHash (p.vkeyOfSkey
    ((p.deriveFromPath (accountWallet p mnemonic) "m/2/0").take 32))

/-- The derivation loop is a map of a per-index record constructor over
`0..count-1`: each record is a pure function of the seed and its index
alone. -/
theorem derive_eq_map (p : HDPrim) (mnemonic : String) (count : Nat) :
    derive_addresses_from_mnemonic p mnemonic count =
      (List.range count).map
        (mkRecord p (accountWallet p mnemonic) (sharedStakeHash p mnemonic)) :=
  rfl

/-- Claim C6: for positive `m ≤ n`, the first `m` records of
`derive(seed, n)` equal `derive(seed, m)` — each record is a pure function
of seed and index, so extending the batch count never changes earlier
addresses. -/
theorem derive_take_stable (p : HDPrim) (mnemonic : String) (m n : Nat)
    (hm : 0 < m) (hn : 0 < n) (hmn : m ≤ n) :
    (derive_addresses_from_mnemonic p mnemonic n).take m =
      derive_addresses_from_mnemonic p mnemonic m := by
  rw [derive_eq_map, derive_eq_map, ← List.map_take, List.take_range,
    Nat.min_eq_left hmn]

/-- Witness for C6 at concrete inputs. -/
theorem derive_take_stable_witness :
    (0 < 2 ∧ 0 < 3 ∧ 2 ≤ 3) ∧
    (derive_addresses_from_mnemonic dummyPrim "seed" 3).take 2 =
      derive_addresses_from_mnemonic dummyPrim "seed" 2 :=
  ⟨by decide,
   derive_take_stable dummyPrim "seed" 2 3 (by decide) (by decide)
     (by decide)⟩

/-! Claim C3. -/

/-- Unfolding of one processed (not-skipped) registration iteration. -/
theorem regLoop_cons_not_done (oracle : String → Response)
    (signPrim : List Nat → List Nat → List Nat) (message : String)
    (r : Record) (rest : List Record) (i total : Nat) (regs : List RegEntry)
    (done : List String) (hmem : r.address ∉ done) :
    regLoop oracle signPrim message (r :: rest) i total regs done =
      (let sig := sign_cip30_message message (signPrim r.skey) r.addressBytes
       let pk := bytesToHex r.vkey
       let res := regClassify (oracle r.address)
       let regs' := if res.success then
           regs ++ [{ address := r.address, signature := sig, pubkey := pk }]
         else regs
       let done' := if res.success then done ++ [r.address] else done
       let out := regLoop oracle signPrim message rest (i + 1) total regs'
         done'
       (out.1, .sign r.address message ::
         .post r.address (regUrl r.address sig pk) res.success ::
         ((if res.success then [.write "registrations-partial.json"]
           else []) ++
          (if i < total - 1 then [.sleep 2000] else []) ++ out.2))) := by
  simp only [regLoop, if_neg hmem, register_address]

/-- An address already in the membership set receives no remote call and no
signing operation anywhere in the registration loop. -/
theorem regLoop_no_calls_for_done (oracle : String → Response)
    (signPrim : List Nat → List Nat → List Nat) (message : String)
    (a : String) :
    ∀ (lst : List Record) (i total : Nat) (regs : List RegEntry)
      (done : List String), a ∈ done →
      remoteCallsFor a
        (regLoop oracle signPrim message lst i total regs done).2 = 0 ∧
      signOpsFor a
        (regLoop oracle signPrim message lst i total regs done).2 = 0 := by
  intro lst
  induction lst with
  | nil =>
      intro i total regs done _
      exact ⟨rfl, rfl⟩
  | cons r rest ih =>
      intro i total regs done ha
      by_cases hmem : r.address ∈ done
      · simpa only [regLoop, if_pos hmem] using ih (i + 1) total regs done ha
      · have hne : (r.address = a) = False :=
          eq_false (fun he => hmem (he ▸ ha))
        rw [regLoop_cons_not_done oracle signPrim message r rest i total regs
          done hmem]
        by_cases hsucc : (regClassify (oracle r.address)).success
        · have hrec := ih (i + 1) total
            (regs ++ [⟨r.address,
              sign_cip30_message message (signPrim r.skey) r.addressBytes,
              bytesToHex r.vkey⟩])
            (done ++ [r.address]) (List.mem_append_left _ ha)
          by_cases hlast : i < total - 1 <;>
            simp_all [remoteCallsFor, signOpsFor, isPostFor, isSignFor,
              List.countP_cons, List.countP_append]
        · have hrec := ih (i + 1) total regs done ha
          by_cases hlast : i < total - 1 <;>
            simp_all [remoteCallsFor, signOpsFor, isPostFor, isSignFor,
              List.countP_cons, List.countP_append]

/-- Every registered address found in the derived map receives a remote
call in the consolidation loop: the loop consults no progress ledger. -/
theorem consLoop_posts_found (oracle : String → Response)
    (signPrim : List Nat → List Nat → List Nat) (destination : String)
    (derived : List Record) (message : String) (a : String) (r : Record)
    (hfound : addressMap derived a = some r) :
    ∀ (lst : List String) (i total : Nat), a ∈ lst →
      0 < remoteCallsFor a
        (consLoop oracle signPrim destination derived message lst i
          total).2.2 := by
  intro lst
  induction lst with
  | nil => intro i total hmem; cases hmem
  | cons b rest ih =>
      intro i total hmem
      rcases List.mem_cons.mp hmem with hb | hrest
      · subst hb
        simp [consLoop, hfound, consolidate_address, remoteCallsFor,
          isPostFor, List.countP_cons]
      · cases hmap : addressMap derived b with
        | none =>
            simpa only [consLoop, hmap] using ih (i + 1) total hrest
        | some rb =>
            have hrec := ih (i + 1) total hrest
            by_cases hlast : i < total - 1 <;>
              simp_all [consLoop, consolidate_address, remoteCallsFor,
                isPostFor, List.countP_cons, List.countP_append,
                Nat.pos_iff_ne_zero]

/-- Counterexample to C3 as stated: the consolidation batch loop performs
no ledger check.  A first run over the single registered address "A"
records it as a success in the persisted results, yet the second,
identical run (same target list, ledger now populated) still issues one
remote call — not zero — for "A". -/
theorem consolidation_rerun_reposts :
    ({ address := "A", success := true, error := none, status := none,
       payload := some "ok" } : CResult) ∈
      (consolidate_all oracleOK signId "D" [recA] ["A"]).2.1 ∧
    remoteCallsFor "A" (consolidate_all oracleOK signId "D" [recA]
      ["A"]).2.2 = 1 := by
  decide

/-- Claim C3 amended: only the registration loop checks the ledger before
processing an address — an already-recorded address receives zero
additional remote calls and zero signing operations on a re-run — while
the consolidation loop performs no ledger check and issues a remote call
for every registered address present in the derived set on every run. -/
theorem ledger_skip_registration_only (oracle : String → Response)
    (signPrim : List Nat → List Nat → List Nat) (message : String)
    (addresses : List Record) (prior : List RegEntry)
    (destination : String) (derived : List Record)
    (registered : List String) (a : String) (r : Record) :
    (a ∈ prior.map (·.address) →
      remoteCallsFor a (register_all_addresses oracle signPrim addresses
        message true (some prior)).2 = 0 ∧
      signOpsFor a (register_all_addresses oracle signPrim addresses
        message true (some prior)).2 = 0) ∧
    (a ∈ registered → addressMap derived a = some r →
      0 < remoteCallsFor a (consolidate_all oracle signPrim destination
        derived registered).2.2) := by
  constructor
  · intro ha
    simpa only [register_all_addresses] using
      regLoop_no_calls_for_done oracle signPrim message a addresses 0
        addresses.length prior (prior.map (·.address)) ha
  · intro ha hfound
    have h1 := consLoop_posts_found oracle signPrim destination derived
      ("Assign accumulated Scavenger rights to: " ++ destination) a r hfound
      registered 0 registered.length ha
    have h2 : remoteCallsFor a (consolidate_all oracle signPrim destination
        derived registered).2.2 =
        remoteCallsFor a (consLoop oracle signPrim destination derived
          ("Assign accumulated Scavenger rights to: " ++ destination)
          registered 0 registered.length).2.2 +
        remoteCallsFor a [Effect.write "consolidation-results.json"] := by
      simp only [consolidate_all, remoteCallsFor, List.countP_append]
    rw [h2]
    exact Nat.lt_of_lt_of_le h1 (Nat.le_add_right _ _)

/-- Witness for the amended C3 at concrete inputs. -/
theorem ledger_skip_registration_only_witness :
    (remoteCallsFor "A" (register_all_addresses oracleOK signId [recA] "m"
      true (some [{ address := "A", signature := "s", pubkey := "p" }])).2
        = 0 ∧
     signOpsFor "A" (register_all_addresses oracleOK signId [recA] "m"
      true (some [{ address := "A", signature := "s", pubkey := "p" }])).2
        = 0) ∧
    0 < remoteCallsFor "A"
      (consolidate_all oracleOK signId "D" [recA] ["A"]).2.2 :=
  ⟨(ledger_skip_registration_only oracleOK signId "m" [recA]
      [{ address := "A", signature := "s", pubkey := "p" }] "D" [recA] ["A"]
      "A" recA).1 (by decide),
   (ledger_skip_registration_only oracleOK signId "m" [recA]
      [{ address := "A", signature := "s", pubkey := "p" }] "D" [recA] ["A"]
      "A" recA).2 (by decide) (by decide)⟩

/-! Claim C5. -/

/-- A conditional pacing sleep in front of a trace does not affect the
persistence discipline. -/
theorem persistedBeforeNext_ite_sleep (c : Prop) [Decidable c] (ms : Nat)
    (l : List Effect) :
    persistedBeforeNext ((if c then [Effect.sleep ms] else []) ++ l) =
      persistedBeforeNext l := by
  split <;> simp [persistedBeforeNext]

/-- After every successful remote call in the registration loop, a durable
write of the partial ledger occurs before the next remote call. -/
theorem regLoop_persists_before_next (oracle : String → Response)
    (signPrim : List Nat → List Nat → List Nat) (message : String) :
    ∀ (lst : List Record) (i total : Nat) (regs : List RegEntry)
      (done : List String),
      persistedBeforeNext
        (regLoop oracle signPrim message lst i total regs done).2 = true := by
  intro lst
  induction lst with
  | nil => intro i total regs done; rfl
  | cons r rest ih =>
      intro i total regs done
      by_cases hmem : r.address ∈ done
      · simpa only [regLoop, if_pos hmem] using ih (i + 1) total regs done
      · rw [regLoop_cons_not_done oracle signPrim message r rest i total regs
          done hmem]
        by_cases hsucc : (regClassify (oracle r.address)).success
        · have hrec := ih (i + 1) total
            (regs ++ [⟨r.address,
              sign_cip30_message message (signPrim r.skey) r.addressBytes,
              bytesToHex r.vkey⟩])
            (done ++ [r.address])
          simp_all [persistedBeforeNext, writeBeforeNextRemote,
            persistedBeforeNext_ite_sleep]
        · have hrec := ih (i + 1) total regs done
          simp_all [persistedBeforeNext, persistedBeforeNext_ite_sleep]

/-- The consolidation loop itself performs no durable write. -/
theorem consLoop_no_writes (oracle : String → Response)
    (signPrim : List Nat → List Nat → List Nat) (destination : String)
    (derived : List Record) (message : String) :
    ∀ (lst : List String) (i total : Nat),
      (consLoop oracle signPrim destination derived message lst i
        total).2.2.countP isWriteEff = 0 := by
  intro lst
  induction lst with
  | nil => intro i total; rfl
  | cons a rest ih =>
      intro i total
      cases hmap : addressMap derived a with
      | none => simpa only [consLoop, hmap] using ih (i + 1) total
      | some r =>
          have hrec := ih (i + 1) total
          by_cases hlast : i < total - 1 <;>
            simp_all [consLoop, consolidate_address, List.countP_cons,
              List.countP_append, isWriteEff]

/-- Counterexample to C5 as stated: a two-address consolidation run whose
remote calls both succeed violates the persist-before-advance discipline —
the second remote call is issued with no durable write after the first
successful one (the results file is written only once, at the end). -/
theorem consolidation_no_persist_before_next :
    persistedBeforeNext
      (consolidate_all oracleOK signId "D" [recA, recB] ["A", "B"]).2.2 =
      false := by
  decide

/-- Claim C5 amended: the registration orchestrator durably persists the
ledger entry of each successful per-address operation before issuing the
next remote call; the consolidation orchestrator does not — it performs
exactly one durable write per run, as the final effect of the run, after
all remote calls. -/
theorem persist_discipline (oracle : String → Response)
    (signPrim : List Nat → List Nat → List Nat) (message : String)
    (addresses : List Record) (tempFileExists : Bool)
    (parsed : Option (List RegEntry)) (destination : String)
    (derived : List Record) (registered : List String) :
    persistedBeforeNext (register_all_addresses oracle signPrim addresses
      message tempFileExists parsed).2 = true ∧
    (consolidate_all oracle signPrim destination derived
      registered).2.2.countP isWriteEff = 1 ∧
    (consolidate_all oracle signPrim destination derived
      registered).2.2.getLast? = some (.write "consolidation-results.json") := by
  refine ⟨?_, ?_, ?_⟩
  · cases tempFileExists with
    | false =>
        simpa only [register_all_addresses, Bool.false_eq_true, if_neg] using
          regLoop_persists_before_next oracle signPrim message addresses 0
            addresses.length [] []
    | true =>
        cases parsed with
        | none => cases addresses with
            | nil => rfl
            | cons r rest => rfl
        | some regs =>
            simpa only [register_all_addresses, if_pos] using
              regLoop_persists_before_next oracle signPrim message addresses 0
                addresses.length regs (regs.map (·.address))
  · have h := consLoop_no_writes oracle signPrim destination derived
      ("Assign accumulated Scavenger rights to: " ++ destination) registered
      0 registered.length
    simp [consolidate_all, List.countP_append, h, isWriteEff]
  · simp [consolidate_all, List.getLast?_concat]

/-! Claim C4. -/

/-- Inter-request pacing of the registration loop: with the loop's actual
`total = i + remaining` accounting, every remote call is separated from
the next by a sleep. -/
theorem regLoop_paced (oracle : String → Response)
    (signPrim : List Nat → List Nat → List Nat) (message : String) :
    ∀ (lst : List Record) (i : Nat) (regs : List RegEntry)
      (done : List String),
      pacedBetweenRemotes
        (regLoop oracle signPrim message lst i (i + lst.length) regs
          done).2 = true := by
  intro lst
  induction lst with
  | nil => intro i regs done; rfl
  | cons r rest ih =>
      intro i regs done
      have ht : i + (r :: rest).length = (i + 1) + rest.length := by
        simp [List.length_cons]; omega
      by_cases hmem : r.address ∈ done
      · rw [regLoop.eq_def]
        simp only [if_pos hmem]
        rw [ht]
        exact ih (i + 1) regs done
      · rw [regLoop_cons_not_done oracle signPrim message r rest i
          (i + (r :: rest).length) regs done hmem]
        cases rest with
        | nil =>
            have hlast : ¬ (i < i + ([] : List Record).length + 1 - 1) := by
              simp
            by_cases hsucc : (regClassify (oracle r.address)).success <;>
              simp_all [regLoop, pacedBetweenRemotes, sleepBeforeNextRemote,
                List.length_cons]
        | cons b rest' =>
            have hlast : i < i + 1 + (b :: rest').length - 1 := by
              simp [List.length_cons]
              omega
            have hrec1 := ih (i + 1)
              (regs ++ [⟨r.address,
                sign_cip30_message message (signPrim r.skey) r.addressBytes,
                bytesToHex r.vkey⟩])
              (done ++ [r.address])
            have hrec2 := ih (i + 1) regs done
            rw [ht]
            by_cases hsucc : (regClassify (oracle r.address)).success <;>
              simp_all [pacedBetweenRemotes, sleepBeforeNextRemote,
                List.length_cons]

/-- Inter-request pacing of the consolidation loop, with the loop's actual
`total = i + remaining` accounting. -/
theorem consLoop_paced (oracle : String → Response)
    (signPrim : List Nat → List Nat → List Nat) (destination : String)
    (derived : List Record) (message : String) :
    ∀ (lst : List String) (i : Nat),
      pacedBetweenRemotes
        (consLoop oracle signPrim destination derived message lst i
          (i + lst.length)).2.2 = true := by
  intro lst
  induction lst with
  | nil => intro i; rfl
  | cons a rest ih =>
      intro i
      have ht : i + (a :: rest).length = (i + 1) + rest.length := by
        simp [List.length_cons]; omega
      cases hmap : addressMap derived a with
      | none =>
          rw [consLoop.eq_def]
          simp only [hmap]
          rw [ht]
          exact ih (i + 1)
      | some r =>
          cases rest with
          | nil =>
              by_cases hsucc :
                  (consClassify (oracle a)).success <;>
                simp_all [consLoop, consolidate_address, pacedBetweenRemotes,
                  sleepBeforeNextRemote, List.length_cons]
          | cons b rest' =>
              have hlast : i < i + 1 + (b :: rest').length - 1 := by
                simp [List.length_cons]
                omega
              have hrec := ih (i + 1)
              rw [consLoop.eq_def]
              simp only [hmap]
              rw [ht]
              by_cases hsucc :
                  (consClassify (oracle a)).success <;>
                simp_all [consolidate_address, pacedBetweenRemotes,
                  sleepBeforeNextRemote, List.length_cons]

/-- Appending a trailing file write preserves reaching a sleep before the
next remote call. -/
theorem sleepBeforeNextRemote_append_write (f : String) :
    ∀ (tr : List Effect),
      sleepBeforeNextRemote (tr ++ [Effect.write f]) =
        sleepBeforeNextRemote tr := by
  intro tr
  induction tr with
  | nil => rfl
  | cons x tr ih => cases x <;> simp_all [sleepBeforeNextRemote]

/-- Appending a trailing file write preserves the pacing discipline. -/
theorem pacedBetweenRemotes_append_write (f : String) :
    ∀ (tr : List Effect),
      pacedBetweenRemotes (tr ++ [Effect.write f]) =
        pacedBetweenRemotes tr := by
  intro tr
  induction tr with
  | nil => rfl
  | cons x tr ih =>
      cases x <;> simp_all [pacedBetweenRemotes,
        sleepBeforeNextRemote_append_write]

/-- Counterexample to C4 as stated: in the consolidation run, a remote 429
response is not distinguished from a terminal per-address failure — it is
recorded in the persisted results as an ordinary failure entry (with the
generic `HTTP 429` error text and no rate-limited marker), and the
consolidation classifier carries no rate-limited flag for it. -/
theorem consolidation_429_recorded_as_failure :
    ({ address := "A", success := false, error := some "HTTP 429: slow",
       status := some 429, payload := none } : CResult) ∈
      (consolidate_all oracle429 signId "D" [recA] ["A"]).2.1 ∧
    (consClassify (oracle429 "A")).rateLimited = false := by
  decide

/-- Claim C4 amended: the registration classifier flags a 429 response as
rate-limited (success `false`, `rate_limited` marker, the Retry-After hint
surfaced in the error text) and flags no other status, and both batch
loops apply a fixed inter-request delay before the next remote call after
every response, rate-limited ones included; the consolidation classifier
has no rate-limited case at all — a 429 there is an ordinary terminal
per-address failure. -/
theorem rate_limit_handling (oracle : String → Response)
    (signPrim : List Nat → List Nat → List Nat) (message : String) :
    (∀ (ra : Option String) (body : Option String) (text : String),
      regClassify (.http 429 ra body text) =
        { success := false, rateLimited := true,
          error := some ("Rate limited (retry after: " ++ ra.getD "unknown"
            ++ ")"),
          status := none, payload := none }) ∧
    (∀ (status : Nat) (ra body : Option String) (text : String),
      status ≠ 429 →
      (regClassify (.http status ra body text)).rateLimited = false) ∧
    (∀ (addresses : List Record) (tempFileExists : Bool)
      (parsed : Option (List RegEntry)),
      pacedBetweenRemotes (register_all_addresses oracle signPrim addresses
        message tempFileExists parsed).2 = true) ∧
    (∀ resp : Response, (consClassify resp).rateLimited = false) ∧
    (∀ (destination : String) (derived : List Record)
      (registered : List String),
      pacedBetweenRemotes (consolidate_all oracle signPrim destination
        derived registered).2.2 = true) := by
  refine ⟨?_, ?_, ?_, ?_, ?_⟩
  · intro ra body text
    simp [regClassify]
  · intro status ra body text h
    simp only [regClassify, if_neg h]
    split <;> rfl
  · intro addresses tempFileExists parsed
    cases tempFileExists with
    | false =>
        have h := regLoop_paced oracle signPrim message addresses 0 [] []
        rw [Nat.zero_add] at h
        simpa only [register_all_addresses, Bool.false_eq_true, if_neg]
          using h
    | true =>
        cases parsed with
        | none =>
            cases addresses with
            | nil => rfl
            | cons r rest => rfl
        | some regs =>
            have h := regLoop_paced oracle signPrim message addresses 0 regs
              (regs.map (·.address))
            rw [Nat.zero_add] at h
            simpa only [register_all_addresses, if_pos] using h
  · intro resp
    cases resp with
    | netErr e => rfl
    | http status ra body text =>
        simp only [consClassify]
        split <;> rfl
  · intro destination derived registered
    have h := consLoop_paced oracle signPrim destination derived
      ("Assign accumulated Scavenger rights to: " ++ destination) registered 0
    rw [Nat.zero_add] at h
    simpa only [consolidate_all, pacedBetweenRemotes_append_write] using h

/-- Witness for the amended C4 at concrete inputs. -/
theorem rate_limit_handling_witness :
    regClassify (.http 429 (some "5") none "slow") =
      { success := false, rateLimited := true,
        error := some ("Rate limited (retry after: " ++
          (some "5").getD "unknown" ++ ")"),
        status := none, payload := none } ∧
    (regClassify (.http 500 none none "slow")).rateLimited = false ∧
    pacedBetweenRemotes (register_all_addresses oracleOK signId [recA, recB]
      "m" false none).2 = true ∧
    (consClassify (.http 429 (some "5") none "slow")).rateLimited = false ∧
    pacedBetweenRemotes (consolidate_all oracleOK signId "D" [recA, recB]
      ["A", "B"]).2.2 = true :=
  ⟨(rate_limit_handling oracleOK signId "m").1 (some "5") none "slow",
   (rate_limit_handling oracleOK signId "m").2.1 500 none none "slow"
     (by decide),
   (rate_limit_handling oracleOK signId "m").2.2.1 [recA, recB] false none,
   (rate_limit_handling oracleOK signId "m").2.2.2.1 _,
   (rate_limit_handling oracleOK signId "m").2.2.2.2 "D" [recA, recB]
     ["A", "B"]⟩

/-! Claim C7. -/

/-- Two derived records that agree on everything the network and the
durable files may legitimately depend on: index, address string, address
bytes and public key — while their private-key material may differ
arbitrarily, provided the signing primitive produces the same signatures
from it. -/
def RecEquiv (signPrim : List Nat → List Nat → List Nat)
    (r1 r2 : Record) : Prop :=
  r1.index = r2.index ∧ r1.address = r2.address ∧
  r1.addressBytes = r2.addressBytes ∧ r1.vkey = r2.vkey ∧
  ∀ m, signPrim r1.skey m = signPrim r2.skey m

/-- Pointwise lift of `RecEquiv` to lookup results. -/
def OptRecEquiv (signPrim : List Nat → List Nat → List Nat) :
    Option Record → Option Record → Prop
  | none, none => True
  | some r1, some r2 => RecEquiv signPrim r1 r2
  | _, _ => False

/-- The envelope builder depends on the key only through the signing
function's output. -/
theorem sign_cip30_congr (message : String) (s1 s2 : List Nat → List Nat)
    (ab1 ab2 : List Nat) (hab : ab1 = ab2) (hs : ∀ m, s1 m = s2 m) :
    sign_cip30_message message s1 ab1 = sign_cip30_message message s2 ab2 := by
  subst hab
  simp only [sign_cip30_message, hs]

/-- Derived-map lookups on `RecEquiv`-related record lists produce
`RecEquiv`-related results. -/
theorem addressMap_rel (signPrim : List Nat → List Nat → List Nat)
    (a : String) (l1 l2 : List Record)
    (h : List.Forall₂ (RecEquiv signPrim) l1 l2) :
    OptRecEquiv signPrim (addressMap l1 a) (addressMap l2 a) := by
  have general : ∀ (m1 m2 : List Record),
      List.Forall₂ (RecEquiv signPrim) m1 m2 →
      ∀ (acc1 acc2 : Option Record), OptRecEquiv signPrim acc1 acc2 →
      OptRecEquiv signPrim
        (m1.foldl (fun acc r => if r.address = a then some r else acc) acc1)
        (m2.foldl (fun acc r => if r.address = a then some r else acc)
          acc2) := by
    intro m1 m2 hm
    induction hm with
    | nil => intro acc1 acc2 hacc; exact hacc
    | @cons r1 r2 t1 t2 hr ht ih =>
        intro acc1 acc2 hacc
        have haddr : r1.address = r2.address := hr.2.1
        simp only [List.foldl_cons]
        by_cases hcond : r1.address = a
        · rw [if_pos hcond, if_pos (haddr ▸ hcond)]
          exact ih (some r1) (some r2) hr
        · rw [if_neg hcond, if_neg (haddr ▸ hcond)]
          exact ih acc1 acc2 hacc
  exact general l1 l2 h none none trivial

/-- The registration loop is invariant under replacing the private-key
material of its records, as long as addresses, public keys and produced
signatures agree: its ledger output and full effect trace depend on the
records only through those. -/
theorem regLoop_equiv (oracle : String → Response)
    (signPrim : List Nat → List Nat → List Nat) (message : String)
    (l1 l2 : List Record) (h : List.Forall₂ (RecEquiv signPrim) l1 l2) :
    ∀ (i total : Nat) (regs : List RegEntry) (done : List String),
      regLoop oracle signPrim message l1 i total regs done =
        regLoop oracle signPrim message l2 i total regs done := by
  induction h with
  | nil => intro i total regs done; rfl
  | @cons r1 r2 t1 t2 hr ht ih =>
      intro i total regs done
      have haddr : r1.address = r2.address := hr.2.1
      have hvkey : r1.vkey = r2.vkey := hr.2.2.2.1
      have hsig := sign_cip30_congr message (signPrim r1.skey)
        (signPrim r2.skey) r1.addressBytes r2.addressBytes hr.2.2.1
        hr.2.2.2.2
      by_cases hmem : r1.address ∈ done
      · simp only [regLoop, if_pos hmem, if_pos (haddr ▸ hmem : r2.address ∈ done),
          ih]
      · simp only [regLoop, if_neg hmem,
          if_neg (haddr ▸ hmem : r2.address ∉ done), hsig, haddr, hvkey, ih]

/-- The consolidation loop is likewise invariant under replacing
private-key material with signature-equivalent material. -/
theorem consLoop_equiv (oracle : String → Response)
    (signPrim : List Nat → List Nat → List Nat) (destination : String)
    (message : String) (l1 l2 : List Record)
    (h : List.Forall₂ (RecEquiv signPrim) l1 l2) :
    ∀ (lst : List String) (i total : Nat),
      consLoop oracle signPrim destination l1 message lst i total =
        consLoop oracle signPrim destination l2 message lst i total := by
  intro lst
  induction lst with
  | nil => intro i total; rfl
  | cons a rest ih =>
      intro i total
      have hmap := addressMap_rel signPrim a l1 l2 h
      cases h1 : addressMap l1 a with
      | none =>
          cases h2 : addressMap l2 a with
          | none => simp only [consLoop, h1, h2, ih]
          | some r2 => rw [h1, h2] at hmap; cases hmap
      | some r1 =>
          cases h2 : addressMap l2 a with
          | none => rw [h1, h2] at hmap; cases hmap
          | some r2 =>
              rw [h1, h2] at hmap
              have hsig := sign_cip30_congr message (signPrim r1.skey)
                (signPrim r2.skey) r1.addressBytes r2.addressBytes
                hmap.2.2.1 hmap.2.2.2.2
              simp only [consLoop, h1, h2, hsig, ih]

/-- Claim C7: no private-key or seed material reaches durable storage or
the network.  Every output of either orchestrator — the persisted
registration entries (address, signature, pubkey), the persisted
consolidation results (address, success flag, error/status detail) and the
full effect trace, request URLs included — is invariant under replacing
the private-key material of the derived records by any other material that
yields the same signatures and public data: the runs depend on keys only
through the signing primitive's output. -/
theorem key_material_noninterference (oracle : String → Response)
    (signPrim : List Nat → List Nat → List Nat) (message : String)
    (tempFileExists : Bool) (parsed : Option (List RegEntry))
    (destination : String) (registered : List String)
    (l1 l2 : List Record) (h : List.Forall₂ (RecEquiv signPrim) l1 l2) :
    register_all_addresses oracle signPrim l1 message tempFileExists parsed =
      register_all_addresses oracle signPrim l2 message tempFileExists
        parsed ∧
    consolidate_all oracle signPrim destination l1 registered =
      consolidate_all oracle signPrim destination l2 registered := by
  have hlen := List.Forall₂.length_eq h
  constructor
  · cases tempFileExists with
    | false =>
        simp [register_all_addresses, hlen,
          regLoop_equiv oracle signPrim message l1 l2 h]
    | true =>
        cases parsed with
        | some regs =>
            simp [register_all_addresses, hlen,
              regLoop_equiv oracle signPrim message l1 l2 h]
        | none =>
            cases h with
            | nil => rfl
            | cons hr ht => rfl
  · simp only [consolidate_all, hlen,
      consLoop_equiv oracle signPrim destination
        ("Assign accumulated Scavenger rights to: " ++ destination) l1 l2 h]

/-- A copy of `recA` whose private-key bytes differ. -/
def recAk : Record :=
  { index := 0, address := "A", addressBytes := [1], skey := [99],
    vkey := [3] }

/-- Witness for C7: under a signing primitive that does not leak the key,
two runs whose records differ only in private-key material coincide. -/
theorem key_material_noninterference_witness :
    register_all_addresses oracleOK signId [recA] "m" false none =
      register_all_addresses oracleOK signId [recAk] "m" false none ∧
    consolidate_all oracleOK signId "D" [recA] ["A"] =
      consolidate_all oracleOK signId "D" [recAk] ["A"] :=
  key_material_noninterference oracleOK signId "m" false none "D" ["A"]
    [recA] [recAk]
    (List.Forall₂.cons ⟨rfl, rfl, rfl, rfl, fun _ => rfl⟩ List.Forall₂.nil)

end Scavenge
